import Mathlib

/-!
Verification development for `apps/backup_and_restore/backup_and_restore.py`.

The script populates a vector store with deterministic synthetic records,
deletes a fraction of them, and validates the observable state through
aggregation, point-lookup, filtered-lookup and nearest-neighbour queries.
This file gives a shallow embedding of the script's pure logic:

* Python `float` arithmetic is modelled exactly as IEEE binary64
  round-to-nearest-even over `ℚ` (normal range; the harness's numbers are
  far from overflow and subnormal territory, which are not modelled);
* the record generator, the batch-error callback, and the two validators
  become pure Lean functions; the data store's responses are inputs;
* `logger` calls become a list of `LogEvent`s and `sys.exit(1)` becomes an
  `Option ℕ` exit-status component, so fatal control flow is observable.
-/

namespace BackupRestore

/-! ## IEEE binary64 rounding, modelled over ℚ -/

/-- Round a rational to the nearest integer, ties to even
(the significand-rounding step of IEEE round-to-nearest-even). -/
def roundHalfEven (m : ℚ) : ℤ :=
  let f := ⌊m⌋
  let r := m - f
  if r < 1/2 then f
  else if 1/2 < r then f + 1
  else if f % 2 = 0 then f else f + 1

/-- Round a positive rational to the nearest IEEE binary64 value:
scale into the 53-bit significand range `[2^52, 2^53)`, round the
significand half-to-even, and scale back. -/
def fpRoundPos (q : ℚ) : ℚ :=
  let e : ℤ := Int.log 2 q - 52
  ((roundHalfEven (q * 2 ^ (-e)) : ℤ) : ℚ) * 2 ^ e

/-- Round a rational to the nearest IEEE binary64 value (normal range). -/
def fpRound (q : ℚ) : ℚ :=
  if q = 0 then 0
  else if 0 < q then fpRoundPos q
  else -fpRoundPos (-q)

/-- The binary64 value of the Python literal `0.1`. -/
def float0_1 : ℚ := fpRound (1/10)

/-- The binary64 value of the Python literal `0.9`. -/
def float0_9 : ℚ := fpRound (9/10)

/-- Python `float` multiplication: exact product, then binary64 rounding. -/
def fpMul (a b : ℚ) : ℚ := fpRound (a * b)

/-- Python `float` addition: exact sum, then binary64 rounding. -/
def fpAdd (a b : ℚ) : ℚ := fpRound (a + b)

/-- Python `float` true division: exact quotient, then binary64 rounding. -/
def fpDiv (a b : ℚ) : ℚ := fpRound (a / b)

/-- Conversion of a Python `int` to `float` (exact value, then rounding). -/
def fpOfNat (n : ℕ) : ℚ := fpRound n

theorem fpRound_zero : fpRound 0 = 0 := by simp [fpRound]

theorem fpOfNat_zero : fpOfNat 0 = 0 := by simp [fpOfNat, fpRound]

/-- Uniqueness of the binary exponent: if `2^E ≤ q < 2^(E+1)` then
`Int.log 2 q = E`. -/
theorem log2_eq_of_bounds {q : ℚ} {E : ℤ} (h0 : 0 < q)
    (h1 : (2:ℚ) ^ E ≤ q) (h2 : q < (2:ℚ) ^ (E + 1)) :
    Int.log 2 q = E := by
  have hcast : ((2:ℕ):ℚ) = (2:ℚ) := by norm_num
  have ha : E ≤ Int.log 2 q :=
    (Int.zpow_le_iff_le_log (by norm_num) h0).mp (by rw [hcast]; exact h1)
  have hb : Int.log 2 q < E + 1 :=
    (Int.lt_zpow_iff_log_lt (b := 2) (x := E + 1) (by norm_num) h0).mp
      (by rw [hcast]; exact h2)
  omega

/-- Evaluation of `fpRound` when the significand rounds down:
if `q ∈ [2^(E+52), 2^(E+53))` and `f·2^E ≤ q < (f + 1/2)·2^E`
then `fpRound q = f·2^E`. -/
theorem fpRound_eq_down {q : ℚ} {E f : ℤ} (h0 : 0 < q)
    (h1 : (2:ℚ) ^ (E + 52) ≤ q) (h2 : q < (2:ℚ) ^ (E + 53))
    (hf1 : (f:ℚ) * 2 ^ E ≤ q) (hf2 : 2 * q < (2 * f + 1) * 2 ^ E) :
    fpRound q = (f:ℚ) * 2 ^ E := by
  have hlog : Int.log 2 q = E + 52 :=
    log2_eq_of_bounds h0 h1 (by rw [show E + 52 + 1 = E + 53 by ring]; exact h2)
  have hpow : (0:ℚ) < 2 ^ E := zpow_pos (by norm_num) E
  have hm1 : (f:ℚ) ≤ q * 2 ^ (-E) := by
    rw [zpow_neg, ← div_eq_mul_inv, le_div_iff₀ hpow]
    exact hf1
  have hm2 : q * 2 ^ (-E) < (f:ℚ) + 1/2 := by
    rw [zpow_neg, ← div_eq_mul_inv, div_lt_iff₀ hpow]
    nlinarith [hf2]
  have hfloor : ⌊q * 2 ^ (-E)⌋ = f := by
    rw [Int.floor_eq_iff]
    constructor
    · exact hm1
    · nlinarith [hm2]
  have hr : roundHalfEven (q * 2 ^ (-E)) = f := by
    unfold roundHalfEven
    rw [hfloor]
    have : q * 2 ^ (-E) - (f:ℚ) < 1/2 := by linarith
    simp only [this, if_pos]
  have heq : Int.log 2 q - 52 = E := by omega
  unfold fpRound fpRoundPos
  rw [if_neg (ne_of_gt h0), if_pos h0]
  simp only [heq, hr]

/-- Evaluation of `fpRound` when the significand rounds up:
if `q ∈ [2^(E+52), 2^(E+53))` and `(f + 1/2)·2^E < q < (f+1)·2^E`
then `fpRound q = (f+1)·2^E`. -/
theorem fpRound_eq_up {q : ℚ} {E f : ℤ} (h0 : 0 < q)
    (h1 : (2:ℚ) ^ (E + 52) ≤ q) (h2 : q < (2:ℚ) ^ (E + 53))
    (hf1 : (2 * f + 1) * 2 ^ E < 2 * q) (hf2 : q < ((f:ℚ) + 1) * 2 ^ E) :
    fpRound q = ((f:ℚ) + 1) * 2 ^ E := by
  have hlog : Int.log 2 q = E + 52 :=
    log2_eq_of_bounds h0 h1 (by rw [show E + 52 + 1 = E + 53 by ring]; exact h2)
  have hpow : (0:ℚ) < 2 ^ E := zpow_pos (by norm_num) E
  have hm1 : (f:ℚ) + 1/2 < q * 2 ^ (-E) := by
    rw [zpow_neg, ← div_eq_mul_inv, lt_div_iff₀ hpow]
    nlinarith [hf1]
  have hm2 : q * 2 ^ (-E) < (f:ℚ) + 1 := by
    rw [zpow_neg, ← div_eq_mul_inv, div_lt_iff₀ hpow]
    nlinarith [hf2]
  have hfloor : ⌊q * 2 ^ (-E)⌋ = f := by
    rw [Int.floor_eq_iff]
    constructor
    · linarith
    · linarith
  have hr : roundHalfEven (q * 2 ^ (-E)) = f + 1 := by
    unfold roundHalfEven
    rw [hfloor]
    have hnot : ¬ (q * 2 ^ (-E) - (f:ℚ) < 1/2) := by push_neg; linarith
    have hgt : 1/2 < q * 2 ^ (-E) - (f:ℚ) := by linarith
    simp only [hnot, if_neg, not_false_iff, hgt, if_pos]
  have heq : Int.log 2 q - 52 = E := by omega
  unfold fpRound fpRoundPos
  rw [if_neg (ne_of_gt h0), if_pos h0]
  simp only [heq, hr]
  push_cast
  ring

/-- Evaluation of `fpRound` at a value that is exactly representable
(an integer multiple of `2^E` inside the significand window). -/
theorem fpRound_exact {q : ℚ} {E f : ℤ} (h0 : 0 < q)
    (h1 : (2:ℚ) ^ (E + 52) ≤ q) (h2 : q < (2:ℚ) ^ (E + 53))
    (hq : q = (f:ℚ) * 2 ^ E) : fpRound q = q := by
  have hpow : (0:ℚ) < 2 ^ E := zpow_pos (by norm_num) E
  have := fpRound_eq_down (f := f) h0 h1 h2 (le_of_eq hq.symm)
    (by rw [hq]; nlinarith [hpow])
  rw [this, hq]

/-! ## Concrete binary64 values used by the script -/

theorem float0_1_eval : float0_1 = 3602879701896397 / 2 ^ 55 := by
  unfold float0_1
  rw [fpRound_eq_up (E := -56) (f := 7205759403792793)
    (by norm_num) (by norm_num) (by norm_num) (by push_cast; norm_num)
    (by push_cast; norm_num)]
  push_cast
  norm_num

theorem float0_9_eval : float0_9 = 8106479329266893 / 2 ^ 53 := by
  unfold float0_9
  rw [fpRound_eq_up (E := -53) (f := 8106479329266892)
    (by norm_num) (by norm_num) (by norm_num) (by push_cast; norm_num)
    (by push_cast; norm_num)]
  push_cast
  norm_num

theorem fpOfNat_3 : fpOfNat 3 = 3 := by
  unfold fpOfNat; push_cast
  exact fpRound_exact (E := -51) (f := 3 * 2 ^ 51)
    (by norm_num) (by norm_num) (by norm_num) (by push_cast; norm_num)

theorem fpOfNat_4 : fpOfNat 4 = 4 := by
  unfold fpOfNat; push_cast
  exact fpRound_exact (E := -50) (f := 4 * 2 ^ 50)
    (by norm_num) (by norm_num) (by norm_num) (by push_cast; norm_num)

theorem fpOfNat_5 : fpOfNat 5 = 5 := by
  unfold fpOfNat; push_cast
  exact fpRound_exact (E := -50) (f := 5 * 2 ^ 50)
    (by norm_num) (by norm_num) (by norm_num) (by push_cast; norm_num)

theorem fpOfNat_10 : fpOfNat 10 = 10 := by
  unfold fpOfNat; push_cast
  exact fpRound_exact (E := -49) (f := 10 * 2 ^ 49)
    (by norm_num) (by norm_num) (by norm_num) (by push_cast; norm_num)

theorem fpOfNat_20 : fpOfNat 20 = 20 := by
  unfold fpOfNat; push_cast
  exact fpRound_exact (E := -48) (f := 20 * 2 ^ 48)
    (by norm_num) (by norm_num) (by norm_num) (by push_cast; norm_num)

theorem fpOfNat_50000 : fpOfNat 50000 = 50000 := by
  unfold fpOfNat; push_cast
  exact fpRound_exact (E := -37) (f := 50000 * 2 ^ 37)
    (by norm_num) (by norm_num) (by norm_num) (by push_cast; norm_num)

theorem fpOfNat_100000 : fpOfNat 100000 = 100000 := by
  unfold fpOfNat; push_cast
  exact fpRound_exact (E := -36) (f := 100000 * 2 ^ 36)
    (by norm_num) (by norm_num) (by norm_num) (by push_cast; norm_num)

theorem fpMul_50000_tenth : fpMul (fpOfNat 50000) float0_1 = 5000 := by
  rw [fpOfNat_50000, float0_1_eval]
  unfold fpMul
  rw [fpRound_eq_down (E := -40) (f := 5000 * 2 ^ 40)
    (by norm_num) (by norm_num) (by norm_num) (by push_cast; norm_num)
    (by push_cast; norm_num)]
  push_cast
  norm_num

theorem fpMul_5_tenth : fpMul (fpOfNat 5) float0_1 = 1/2 := by
  rw [fpOfNat_5, float0_1_eval]
  unfold fpMul
  rw [fpRound_eq_down (E := -53) (f := 2 ^ 52)
    (by norm_num) (by norm_num) (by norm_num) (by push_cast; norm_num)
    (by push_cast; norm_num)]
  push_cast
  norm_num

theorem fpMul_10_tenth : fpMul (fpOfNat 10) float0_1 = 1 := by
  rw [fpOfNat_10, float0_1_eval]
  unfold fpMul
  rw [fpRound_eq_down (E := -52) (f := 2 ^ 52)
    (by norm_num) (by norm_num) (by norm_num) (by push_cast; norm_num)
    (by push_cast; norm_num)]
  push_cast
  norm_num

theorem fpMul_20_tenth : fpMul (fpOfNat 20) float0_1 = 2 := by
  rw [fpOfNat_20, float0_1_eval]
  unfold fpMul
  rw [fpRound_eq_down (E := -51) (f := 2 ^ 52)
    (by norm_num) (by norm_num) (by norm_num) (by push_cast; norm_num)
    (by push_cast; norm_num)]
  push_cast
  norm_num

theorem fpMul_ninetenths_50000 : fpMul float0_9 (fpOfNat 50000) = 45000 := by
  rw [fpOfNat_50000, float0_9_eval]
  unfold fpMul
  rw [fpRound_eq_down (E := -37) (f := 45000 * 2 ^ 37)
    (by norm_num) (by norm_num) (by norm_num) (by push_cast; norm_num)
    (by push_cast; norm_num)]
  push_cast
  norm_num

theorem fpMul_ninetenths_100000 : fpMul float0_9 (fpOfNat 100000) = 90000 := by
  rw [fpOfNat_100000, float0_9_eval]
  unfold fpMul
  rw [fpRound_eq_down (E := -36) (f := 90000 * 2 ^ 36)
    (by norm_num) (by norm_num) (by norm_num) (by push_cast; norm_num)
    (by push_cast; norm_num)]
  push_cast
  norm_num

theorem fpAdd_5000_zero : fpAdd 5000 (fpOfNat 0) = 5000 := by
  rw [fpOfNat_zero]
  unfold fpAdd
  rw [show (5000:ℚ) + 0 = 5000 by norm_num]
  exact fpRound_exact (E := -40) (f := 5000 * 2 ^ 40)
    (by norm_num) (by norm_num) (by norm_num) (by push_cast; norm_num)

theorem fpAdd_5000_50000 : fpAdd 5000 (fpOfNat 50000) = 55000 := by
  rw [fpOfNat_50000]
  unfold fpAdd
  rw [show (5000:ℚ) + 50000 = 55000 by norm_num]
  exact fpRound_exact (E := -37) (f := 55000 * 2 ^ 37)
    (by norm_num) (by norm_num) (by norm_num) (by push_cast; norm_num)

theorem fpAdd_half_zero : fpAdd (1/2) (fpOfNat 0) = 1/2 := by
  rw [fpOfNat_zero]
  unfold fpAdd
  rw [show (1:ℚ)/2 + 0 = 1/2 by norm_num]
  exact fpRound_exact (E := -53) (f := 2 ^ 52)
    (by norm_num) (by norm_num) (by norm_num) (by push_cast; norm_num)

theorem fpAdd_one_zero : fpAdd 1 (fpOfNat 0) = 1 := by
  rw [fpOfNat_zero]
  unfold fpAdd
  rw [show (1:ℚ) + 0 = 1 by norm_num]
  exact fpRound_exact (E := -52) (f := 2 ^ 52)
    (by norm_num) (by norm_num) (by norm_num) (by push_cast; norm_num)

theorem fpAdd_two_zero : fpAdd 2 (fpOfNat 0) = 2 := by
  rw [fpOfNat_zero]
  unfold fpAdd
  rw [show (2:ℚ) + 0 = 2 by norm_num]
  exact fpRound_exact (E := -51) (f := 2 ^ 52)
    (by norm_num) (by norm_num) (by norm_num) (by push_cast; norm_num)

theorem fpMul_45000_3 : fpMul 45000 (fpOfNat 3) = 135000 := by
  rw [fpOfNat_3]
  unfold fpMul
  rw [show (45000:ℚ) * 3 = 135000 by norm_num]
  exact fpRound_exact (E := -35) (f := 135000 * 2 ^ 35)
    (by norm_num) (by norm_num) (by norm_num) (by push_cast; norm_num)

theorem fpDiv_135000_4 : fpDiv 135000 (fpOfNat 4) = 33750 := by
  rw [fpOfNat_4]
  unfold fpDiv
  rw [show (135000:ℚ) / 4 = 33750 by norm_num]
  exact fpRound_exact (E := -37) (f := 33750 * 2 ^ 37)
    (by norm_num) (by norm_num) (by norm_num) (by push_cast; norm_num)

theorem fpMul_90000_3 : fpMul 90000 (fpOfNat 3) = 270000 := by
  rw [fpOfNat_3]
  unfold fpMul
  rw [show (90000:ℚ) * 3 = 270000 by norm_num]
  exact fpRound_exact (E := -34) (f := 270000 * 2 ^ 34)
    (by norm_num) (by norm_num) (by norm_num) (by push_cast; norm_num)

theorem fpDiv_270000_4 : fpDiv 270000 (fpOfNat 4) = 67500 := by
  rw [fpOfNat_4]
  unfold fpDiv
  rw [show (270000:ℚ) / 4 = 67500 by norm_num]
  exact fpRound_exact (E := -36) (f := 67500 * 2 ^ 36)
    (by norm_num) (by norm_num) (by norm_num) (by push_cast; norm_num)

theorem fpMul_10_3 : fpMul 10 (fpOfNat 3) = 30 := by
  rw [fpOfNat_3]
  unfold fpMul
  rw [show (10:ℚ) * 3 = 30 by norm_num]
  exact fpRound_exact (E := -48) (f := 30 * 2 ^ 48)
    (by norm_num) (by norm_num) (by norm_num) (by push_cast; norm_num)

theorem fpDiv_30_4 : fpDiv 30 (fpOfNat 4) = 15/2 := by
  rw [fpOfNat_4]
  unfold fpDiv
  rw [show (30:ℚ) / 4 = 15/2 by norm_num]
  exact fpRound_exact (E := -50) (f := 15 * 2 ^ 49)
    (by norm_num) (by norm_num) (by norm_num) (by push_cast; norm_num)

/-! ## Log events and exit status

Calls to `loguru.logger` become `LogEvent`s; each f-string becomes a `Msg`
constructor carrying exactly the interpolated values.  `sys.exit(1)` becomes
the exit-status component `some 1` of a result pair. -/

inductive Level where
  | info
  | error
  | success
  | warning
deriving DecidableEq, Repr

inductive Msg where
  | writingRecord (class_name : String) (i endIdx : ℕ)
  | finishedWriting (n : ℕ)
  | batchError (message : String)
  | aggNoFilterHeader
  | aggFilterHeader
  | gotObjects (class_name : String) (got : ℕ) (wanted : ℚ)
  | gotProps (class_name : String) (got : ℕ) (wanted : ℚ)
  | retrieveByUuidHeader
  | retrieveByFilterHeader
  | vectorSearchHeader
  | vectorSearchFilteredHeader
  | searchQualityNote
  | uuidIndexMismatch (i : ℕ) (got : ℤ)
  | filterIndexMismatch (got : ℤ) (i : ℕ)
  | searchLenMismatch (gotLen wanted : ℕ)
  | validatedUuid (i endIdx : ℕ)
  | validatedFilter (i endIdx : ℕ)
  | validatedSearch (i endIdx : ℕ)
deriving DecidableEq, Repr

abbrev LogEvent := Level × Msg

/-- Messages produced only on a failed validator check; each constructor
carries the offending index or collection together with the observed and
expected values, mirroring the source's fatal f-strings. -/
def Msg.isMismatchMsg : Msg → Bool
  | .gotObjects _ _ _ => true
  | .gotProps _ _ _ => true
  | .uuidIndexMismatch _ _ => true
  | .filterIndexMismatch _ _ => true
  | .searchLenMismatch _ _ => true
  | _ => false

/-- Model of `fatal(msg)`: log the message as an error and exit with
status 1 (`sys.exit(1)`). -/
def fatal (m : Msg) : List LogEvent × Option ℕ := ([(Level.error, m)], some 1)

/-- Sequencing of two stateful steps with early exit: if the first step
exited, the second never runs. -/
def thenRun (a b : List LogEvent × Option ℕ) : List LogEvent × Option ℕ :=
  match a.2 with
  | some _ => a
  | none => (a.1 ++ b.1, b.2)

/-! ## Record generation (`load_records`) -/

/-- The properties of one synthetic record, as built in `load_records`
(the random 32×1 vector is supplied to the store alongside the object and
carries no information used by any check). -/
structure DataObject where
  should_be_deleted : Bool
  index_id : ℕ
  stage : String
  is_divisible_by_four : Bool
deriving DecidableEq, Repr

/-- Python's `delete_threshold = (end-start)*0.1 + start`, evaluated in
binary64 floats. -/
def delete_threshold (start end_ : ℕ) : ℚ :=
  fpAdd (fpMul (fpOfNat (end_ - start)) float0_1) (fpOfNat start)

/-- The marking `i < delete_threshold` of `load_records` (Python compares
the int `i` with the float threshold exactly). -/
def marksForDeletion (start end_ i : ℕ) : Bool :=
  decide ((i:ℚ) < delete_threshold start end_)

/-- The data object built for index `i` in `load_records`. -/
def mkDataObject (start end_ : ℕ) (stage : String) (i : ℕ) : DataObject :=
  { should_be_deleted := marksForDeletion start end_ i
    index_id := i
    stage := stage
    is_divisible_by_four := decide (i % 4 = 0) }

/-- Model of `uuid.UUID(int=i)`: a 128-bit identifier whose integer value
is `i`; construction fails (Python raises `ValueError`) when `i` does not
fit in 128 bits. -/
def uuidFromIndex (i : ℕ) : Option (Fin (2 ^ 128)) :=
  if h : i < 2 ^ 128 then some ⟨i, h⟩ else none

/-- The integer value encoded by an identifier (`uuid.int`). -/
def uuidToIndex (u : Fin (2 ^ 128)) : ℕ := u.val

/-! ## Batch error callback (`handle_errors`) -/

structure ErrorMessage where
  message : String
deriving DecidableEq, Repr

/-- The `result['result']['errors']` dict: may or may not hold an
`'error'` key with a list of message dicts. -/
structure BatchErrors where
  error : Option (List ErrorMessage)
deriving DecidableEq, Repr

/-- The `result['result']` dict: may or may not hold an `'errors'` key. -/
structure BatchItemResult where
  errors : Option BatchErrors
deriving DecidableEq, Repr

/-- One element of a batch response: may or may not hold a `'result'` key. -/
structure BatchItem where
  result : Option BatchItemResult
deriving DecidableEq, Repr

/-- Model of `handle_errors(results)`: for every item whose nested
`result.errors.error` chain is present, log each message as an error.
The callback only logs; it produces no exit and raises nothing. -/
def handle_errors (results : Option (List BatchItem)) : List LogEvent :=
  match results with
  | none => []
  | some items =>
    items.flatMap fun r =>
      match r.result with
      | none => []
      | some res =>
        match res.errors with
        | none => []
        | some errs =>
          match errs.error with
          | none => []
          | some msgs => msgs.map fun m => (Level.error, Msg.batchError m.message)

/-- Model of `load_records(client, class_name, start, end, stage)`.
The store client is abstracted by `batchResults`, the per-batch responses
handed to the callback (batch size 100).  The function unconditionally
submits one object per index of `[start, end)` keyed by its uuid, logs
progress every 10000 indices plus whatever the error callback logs, and
never exits. -/
def load_records (batchResults : ℕ → Option (List BatchItem)) (class_name : String)
    (start end_ : ℕ) (stage : String) :
    List (DataObject × Option (Fin (2 ^ 128))) × List LogEvent × Option ℕ :=
  let idxs := List.range' start (end_ - start)
  let objects := idxs.map fun i => (mkDataObject start end_ stage i, uuidFromIndex i)
  let nBatches := (end_ - start + 99) / 100
  let progressLogs := idxs.flatMap fun i =>
    if i % 10000 = 0 then [(Level.info, Msg.writingRecord class_name i end_)] else []
  let batchLogs := (List.range nBatches).flatMap fun b => handle_errors (batchResults b)
  (objects, progressLogs ++ batchLogs ++ [(Level.info, Msg.finishedWriting (end_ - start))], none)

/-! ## Selective delete (`delete_records`) -/

/-- The conditional-delete request issued by `delete_records`: an equality
predicate on a boolean property, with commit semantics (`dry_run=False`). -/
structure DeleteQuery where
  path : String
  valueBoolean : Bool
  dryRun : Bool
deriving DecidableEq, Repr

/-- The one delete request the script ever issues. -/
def delete_records_query : DeleteQuery :=
  { path := "should_be_deleted", valueBoolean := true, dryRun := false }

/-- The indices of a load range whose record is marked for deletion. -/
def markedList (start end_ : ℕ) : List ℕ :=
  (List.range' start (end_ - start)).filter fun i => marksForDeletion start end_ i

/-- How many records of a load range are marked for deletion. -/
def markedCount (start end_ : ℕ) : ℕ := (markedList start end_).length

/-- Modelled from the spec: the store's live count for a load range after
`delete_records` runs is the complement of the marked records ("the store
must contain exactly the complement: `(end-start) - deleted_count` live
records").  The source only issues the delete request; the resulting count
is behaviour of the external store. -/
def postDeleteCount (start end_ : ℕ) : ℕ := (end_ - start) - markedCount start end_

/-! ## Aggregate validator (`validate_dataset`) -/

/-- Python's `expected_filtered_count = expected_count * 3 / 4`: a float
multiplication by 3 followed by float true division by 4 — no integer
truncation anywhere. -/
def expected_filtered_count (expected_count : ℚ) : ℚ :=
  fpDiv (fpMul expected_count (fpOfNat 3)) (fpOfNat 4)

/-- Model of `validate_dataset(client, class_name, expected_count)`.
The store's four aggregation answers (unfiltered object count, unfiltered
`index_id` property count, and the same pair filtered on
`is_divisible_by_four = false`) are inputs; Python's `!=` between the int
counts and the float expectations is exact comparison in ℚ.  Any mismatch
logs the got/wanted values and exits with status 1. -/
def validate_dataset (total_count prop_count f_total_count f_prop_count : ℕ)
    (class_name : String) (expected_count : ℚ) : List LogEvent × Option ℕ :=
  let efc := expected_filtered_count expected_count
  let L0 := [(Level.info, Msg.aggNoFilterHeader)]
  if (total_count : ℚ) ≠ expected_count then
    (L0 ++ [(Level.error, Msg.gotObjects class_name total_count expected_count)], some 1)
  else
    let L1 := L0 ++ [(Level.success, Msg.gotObjects class_name total_count expected_count)]
    if (prop_count : ℚ) ≠ expected_count then
      (L1 ++ [(Level.error, Msg.gotProps class_name prop_count expected_count)], some 1)
    else
      let L2 := L1 ++ [(Level.success, Msg.gotProps class_name prop_count expected_count),
        (Level.info, Msg.aggFilterHeader)]
      if (f_total_count : ℚ) ≠ efc then
        (L2 ++ [(Level.error, Msg.gotObjects class_name f_total_count efc)], some 1)
      else
        let L3 := L2 ++ [(Level.success, Msg.gotObjects class_name f_total_count efc)]
        if (f_prop_count : ℚ) ≠ efc then
          (L3 ++ [(Level.error, Msg.gotProps class_name f_prop_count efc)], some 1)
        else
          (L3 ++ [(Level.success, Msg.gotProps class_name f_prop_count efc)], none)

/-! ## Per-record validator (`validate_stage`) -/

/-- Python's `start_without_deleted = int((end-start)*0.1 + start)`:
the float threshold truncated to an integer. -/
def start_without_deleted (start end_ : ℕ) : ℕ :=
  (⌊delete_threshold start end_⌋).toNat

/-- One early-exit validation loop of `validate_stage`: for each index in
order, a check either passes (optionally logging a success at the 10000
cadence) or produces a fatal message, which is logged before exit 1. -/
def checkLoop (chk : ℕ → Option Msg) (cad : ℕ → List LogEvent) :
    List ℕ → List LogEvent × Option ℕ
  | [] => ([], none)
  | i :: rest =>
    match chk i with
    | some m => ([(Level.error, m)], some 1)
    | none =>
      let t := checkLoop chk cad rest
      (cad i ++ t.1, t.2)

/-- A nearest-neighbour query as built in `validate_stage`: seeded by the
object id `uuid.UUID(int=i)` (`near_object`), a result-set limit, and an
optional equality filter on the `stage` property. -/
structure NearQuery where
  seed : Option (Fin (2 ^ 128))
  limit : ℕ
  whereStage : Option String
deriving DecidableEq, Repr

/-- One vector-search loop of `validate_stage` (run once without a filter
and once filtered on the stage label).  For each index it issues a
near-object query with limit 20 against the store (abstracted by
`respLen`, the length of the store's result list) and exits fatally when
the result count differs from 20. -/
def vectorLoop (respLen : ℕ → ℕ) (ws : Option String) (endIdx : ℕ) :
    List ℕ → List NearQuery × (List LogEvent × Option ℕ)
  | [] => ([], ([], none))
  | i :: rest =>
    let q : NearQuery := { seed := uuidFromIndex i, limit := 20, whereStage := ws }
    if respLen i ≠ 20 then
      ([q], ([(Level.error, Msg.searchLenMismatch (respLen i) 20)], some 1))
    else
      let t := vectorLoop respLen ws endIdx rest
      (q :: t.1,
        ((if i % 10000 = 0 then [(Level.success, Msg.validatedSearch i endIdx)] else [])
          ++ t.2.1, t.2.2))

/-- Model of `validate_stage(client, class_name, start, end, stage)`.
The store is abstracted by four observation functions: `obsById i` is the
`index_id` property of the object fetched by uuid, `obsByFilter i` the
`index_id` of the first object returned by the `index_id = i` filter
query, and `nearLen`/`nearFilteredLen` the result counts of the two
vector searches.  Four sequential loops over
`range(start_without_deleted, end)` check them, exiting fatally at the
first mismatch. -/
def validated_range (start end_ : ℕ) : List ℕ :=
  List.range' (start_without_deleted start end_) (end_ - start_without_deleted start end_)

def validate_stage (obsById obsByFilter : ℕ → ℤ) (nearLen nearFilteredLen : ℕ → ℕ)
    (class_name : String) (start end_ : ℕ) (stage : String) : List LogEvent × Option ℕ :=
  let idxs := validated_range start end_
  let loop1 := checkLoop
    (fun i => if obsById i ≠ (i:ℤ) then some (Msg.uuidIndexMismatch i (obsById i)) else none)
    (fun i => if i % 10000 = 0 then [(Level.success, Msg.validatedUuid i end_)] else []) idxs
  let loop2 := checkLoop
    (fun i => if obsByFilter i ≠ (i:ℤ) then some (Msg.filterIndexMismatch (obsByFilter i) i) else none)
    (fun i => if i % 10000 = 0 then [(Level.success, Msg.validatedFilter i end_)] else []) idxs
  let loop3 := (vectorLoop nearLen none end_ idxs).2
  let loop4 := (vectorLoop nearFilteredLen (some stage) end_ idxs).2
  thenRun ([(Level.info, Msg.retrieveByUuidHeader)], none)
    (thenRun loop1
      (thenRun ([(Level.info, Msg.retrieveByFilterHeader)], none)
        (thenRun loop2
          (thenRun ([(Level.info, Msg.vectorSearchHeader), (Level.info, Msg.searchQualityNote)], none)
            (thenRun loop3
              (thenRun ([(Level.info, Msg.vectorSearchFilteredHeader), (Level.info, Msg.searchQualityNote)], none)
                loop4))))))

/-! ## Orchestrator constants (module level of the script) -/

def class_names : List String := ["Class_A", "Class_B"]

def objects_per_stage : ℕ := 50000

def start_stage_1 : ℕ := 0

def end_stage_1 : ℕ := objects_per_stage

/-- Python's `expected_count_stage_1 = 0.9 * end_stage_1` (int converted
to float, then float multiplication). -/
def expected_count_stage_1 : ℚ := fpMul float0_9 (fpOfNat end_stage_1)

def start_stage_2 : ℕ := end_stage_1

def end_stage_2 : ℕ := start_stage_2 + objects_per_stage

/-- Python's `expected_count_stage_2 = 0.9 * end_stage_2`. -/
def expected_count_stage_2 : ℚ := fpMul float0_9 (fpOfNat end_stage_2)

/-! ## Evaluated thresholds for the ranges the development refers to -/

theorem delete_threshold_0_50000 : delete_threshold 0 50000 = 5000 := by
  unfold delete_threshold
  rw [show (50000 - 0 : ℕ) = 50000 from by norm_num, fpMul_50000_tenth, fpAdd_5000_zero]

theorem delete_threshold_50000_100000 : delete_threshold 50000 100000 = 55000 := by
  unfold delete_threshold
  rw [show (100000 - 50000 : ℕ) = 50000 from by norm_num, fpMul_50000_tenth, fpAdd_5000_50000]

theorem delete_threshold_0_5 : delete_threshold 0 5 = 1/2 := by
  unfold delete_threshold
  rw [show (5 - 0 : ℕ) = 5 from by norm_num, fpMul_5_tenth, fpAdd_half_zero]

theorem delete_threshold_0_10 : delete_threshold 0 10 = 1 := by
  unfold delete_threshold
  rw [show (10 - 0 : ℕ) = 10 from by norm_num, fpMul_10_tenth, fpAdd_one_zero]

theorem delete_threshold_0_20 : delete_threshold 0 20 = 2 := by
  unfold delete_threshold
  rw [show (20 - 0 : ℕ) = 20 from by norm_num, fpMul_20_tenth, fpAdd_two_zero]

/-! ## Shape of the marked set -/

theorem marksForDeletion_iff (s e i : ℕ) :
    marksForDeletion s e i = true ↔ i < (⌈delete_threshold s e⌉).toNat := by
  unfold marksForDeletion
  rw [decide_eq_true_eq, Int.lt_toNat, Int.lt_ceil]
  push_cast
  exact Iff.rfl

theorem marksForDeletion_eq_decide (s e i : ℕ) :
    marksForDeletion s e i = decide (i < (⌈delete_threshold s e⌉).toNat) := by
  rcases h : marksForDeletion s e i with _ | _
  · have : ¬ i < (⌈delete_threshold s e⌉).toNat := by
      intro hc
      rw [(marksForDeletion_iff s e i).mpr hc] at h
      cases h
    simp [this]
  · simp [(marksForDeletion_iff s e i).mp h]

/-- Filtering a contiguous range by `· < K` keeps a (possibly truncated)
leading prefix of the range. -/
theorem filter_lt_range' (K : ℕ) : ∀ n s : ℕ,
    (List.range' s n).filter (fun i => decide (i < K)) = List.range' s (min n (K - s)) := by
  intro n
  induction n with
  | zero => intro s; simp
  | succ n ih =>
    intro s
    rw [List.range'_succ, List.filter_cons]
    by_cases h : s < K
    · simp only [decide_eq_true_eq, h, if_true]
      rw [ih (s + 1)]
      rw [show min (n + 1) (K - s) = min n (K - (s + 1)) + 1 from by omega, List.range'_succ]
    · simp only [decide_eq_true_eq, h, if_false]
      rw [ih (s + 1)]
      rw [show min n (K - (s + 1)) = 0 from by omega,
        show min (n + 1) (K - s) = 0 from by omega]
      rfl

theorem markedList_eq (s e : ℕ) :
    markedList s e =
      List.range' s (min (e - s) ((⌈delete_threshold s e⌉).toNat - s)) := by
  unfold markedList
  rw [show (fun i => marksForDeletion s e i) =
      (fun i => decide (i < (⌈delete_threshold s e⌉).toNat)) from
    funext fun i => marksForDeletion_eq_decide s e i]
  exact filter_lt_range' _ _ _

theorem markedCount_eq (s e : ℕ) :
    markedCount s e = min (e - s) ((⌈delete_threshold s e⌉).toNat - s) := by
  unfold markedCount
  rw [markedList_eq, List.length_range']

theorem markedCount_stage_1 : markedCount 0 50000 = 5000 := by
  rw [markedCount_eq, delete_threshold_0_50000,
    show ⌈(5000:ℚ)⌉ = 5000 from by rw [Int.ceil_eq_iff] <;> norm_num]
  simp

theorem markedCount_stage_2 : markedCount 50000 100000 = 5000 := by
  rw [markedCount_eq, delete_threshold_50000_100000,
    show ⌈(55000:ℚ)⌉ = 55000 from by rw [Int.ceil_eq_iff] <;> norm_num]
  simp

theorem markedCount_0_5 : markedCount 0 5 = 1 := by
  rw [markedCount_eq, delete_threshold_0_5,
    show ⌈(1:ℚ)/2⌉ = 1 from by rw [Int.ceil_eq_iff] <;> norm_num]
  simp

theorem markedCount_0_10 : markedCount 0 10 = 1 := by
  rw [markedCount_eq, delete_threshold_0_10,
    show ⌈(1:ℚ)⌉ = 1 from by rw [Int.ceil_eq_iff] <;> norm_num]
  simp

theorem start_without_deleted_0_5 : start_without_deleted 0 5 = 0 := by
  unfold start_without_deleted
  rw [delete_threshold_0_5, show ⌊(1:ℚ)/2⌋ = 0 from by norm_num]
  rfl

theorem start_without_deleted_0_10 : start_without_deleted 0 10 = 1 := by
  unfold start_without_deleted
  rw [delete_threshold_0_10, show ⌊(1:ℚ)⌋ = 1 from by norm_num]
  rfl

theorem start_without_deleted_stage_1 : start_without_deleted 0 50000 = 5000 := by
  unfold start_without_deleted
  rw [delete_threshold_0_50000, show ⌊(5000:ℚ)⌋ = 5000 from by norm_num]
  rfl

theorem start_without_deleted_stage_2 : start_without_deleted 50000 100000 = 55000 := by
  unfold start_without_deleted
  rw [delete_threshold_50000_100000, show ⌊(55000:ℚ)⌋ = 55000 from by norm_num]
  rfl

/-! ## Claims C1, C10, C2 -/

/-- C1 (amended): for every load range `[start, end)` the records marked
`should_be_deleted = true` are exactly the lowest
`min (end - start) (⌈t⌉ - start)` indices of the range, where `t` is the
binary64 value of `(end - start)*0.1 + start`.  Because `i < t` is a
strict comparison, the count is governed by the ceiling of `t`, not by
`floor((end - start)*0.1)` as claimed: the two agree whenever `t` is an
integer (as on the script's ranges of length 50000) but differ e.g. for
ranges of length 5. -/
theorem claim_C1 (start end_ : ℕ) :
    markedList start end_ =
      List.range' start (min (end_ - start) ((⌈delete_threshold start end_⌉).toNat - start)) ∧
    markedCount start end_ =
      min (end_ - start) ((⌈delete_threshold start end_⌉).toNat - start) :=
  ⟨markedList_eq start end_, markedCount_eq start end_⟩

/-- C1 counterexample: on the load range `[0, 5)` the loader marks 1
record, but `floor((5-0)*0.1) = 0` (with `0.1` read either as the binary64
constant or as the exact rational). -/
theorem claim_C1_counterexample :
    markedCount 0 5 = 1 ∧ ⌊((5:ℚ) - 0) * float0_1⌋ = 0 ∧ ⌊((5:ℚ) - 0) * (1/10)⌋ = 0 ∧
    markedCount 0 5 ≠ (⌊((5:ℚ) - 0) * float0_1⌋).toNat := by
  have h : ⌊((5:ℚ) - 0) * float0_1⌋ = 0 := by
    rw [float0_1_eval]
    norm_num
  refine ⟨markedCount_0_5, h, by norm_num, ?_⟩
  rw [markedCount_0_5, h]
  norm_num

/-- C10 (confirmed): within any load range, the marked indices form a
downward-closed prefix — if `j` is marked then so is every smaller index
`i` of the range. -/
theorem claim_C10 (start end_ i j : ℕ) (hsi : start ≤ i) (hij : i < j) (hje : j < end_)
    (hj : marksForDeletion start end_ j = true) : marksForDeletion start end_ i = true := by
  unfold marksForDeletion at hj ⊢
  rw [decide_eq_true_eq] at hj ⊢
  have hq : (i:ℚ) < (j:ℚ) := by exact_mod_cast hij
  linarith

/-- C10 witness: on the range `[0, 20)` the threshold is the float `2.0`;
index 1 is marked, and the theorem then forces index 0 to be marked. -/
theorem claim_C10_witness :
    marksForDeletion 0 20 1 = true ∧ marksForDeletion 0 20 0 = true := by
  have hj : marksForDeletion 0 20 1 = true := by
    rw [marksForDeletion_iff, delete_threshold_0_20,
      show ⌈(2:ℚ)⌉ = 2 from by rw [Int.ceil_eq_iff] <;> norm_num]
    norm_num
  exact ⟨hj, claim_C10 0 20 0 1 (by norm_num) (by norm_num) (by norm_num) hj⟩

/-- C2 (amended): the stage validator's four check loops run over
`[int(t), end)` where `t` is the float threshold `(end-start)*0.1 + start`.
This range contains every live (unmarked) index of the load range, and it
contains a deleted index only when `t` is non-integral — in that case
exactly the single index `⌊t⌋`, the highest marked one.  When `t` is a
natural number `k` of the range (as on the script's ranges, whose length is
a multiple of 10), the validated range is exactly
`[start + deletedCount, end)` as claimed. -/
theorem claim_C2 (start end_ : ℕ) :
    (∀ i : ℕ, start ≤ i → i < end_ → marksForDeletion start end_ i = false →
      i ∈ List.range' (start_without_deleted start end_)
        (end_ - start_without_deleted start end_)) ∧
    (∀ i : ℕ, i ∈ List.range' (start_without_deleted start end_)
        (end_ - start_without_deleted start end_) →
      marksForDeletion start end_ i = true →
      i = start_without_deleted start end_ ∧
        ⌊delete_threshold start end_⌋ < ⌈delete_threshold start end_⌉) ∧
    (∀ k : ℕ, delete_threshold start end_ = (k:ℚ) → start ≤ k → k ≤ end_ →
      start_without_deleted start end_ = start + markedCount start end_) := by
  refine ⟨?_, ?_, ?_⟩
  · intro i _ hie hlive
    have hnot : ¬ ((i:ℚ) < delete_threshold start end_) := by
      intro hc
      rw [show marksForDeletion start end_ i = true from by
        unfold marksForDeletion; rw [decide_eq_true_eq]; exact hc] at hlive
      cases hlive
    push_neg at hnot
    have hfloor : ⌊delete_threshold start end_⌋ ≤ (i:ℤ) := by
      have := Int.floor_mono hnot
      rwa [Int.floor_natCast] at this
    have hswd : start_without_deleted start end_ ≤ i := by
      unfold start_without_deleted
      exact Int.toNat_le.mpr hfloor
    rw [List.mem_range'_1]
    omega
  · intro i hi hmark
    rw [List.mem_range'_1] at hi
    have hlt : (i:ℤ) < ⌈delete_threshold start end_⌉ := by
      rw [Int.lt_ceil]
      push_cast
      have := (marksForDeletion_iff start end_ i).mp hmark
      rw [Int.lt_toNat, Int.lt_ceil] at this
      push_cast at this
      exact this
    have hge : ⌊delete_threshold start end_⌋ ≤ (i:ℤ) :=
      Int.toNat_le.mp hi.1
    have hcf : ⌈delete_threshold start end_⌉ ≤ ⌊delete_threshold start end_⌋ + 1 :=
      Int.ceil_le_floor_add_one _
    unfold start_without_deleted at *
    omega
  · intro k hk hsk hke
    have hfl : ⌊delete_threshold start end_⌋ = (k:ℤ) := by
      rw [hk, Int.floor_natCast]
    have hcl : ⌈delete_threshold start end_⌉ = (k:ℤ) := by
      rw [hk, Int.ceil_natCast]
    have hmc := markedCount_eq start end_
    rw [hcl] at hmc
    unfold start_without_deleted
    rw [hfl]
    omega

/-- C2 witness: on the range `[0, 10)` the threshold is the integer float
`1.0`, so the validated range starts exactly at
`start + deletedCount = 1`, and the live index 5 is validated. -/
theorem claim_C2_witness :
    start_without_deleted 0 10 = 0 + markedCount 0 10 ∧
    (5 : ℕ) ∈ List.range' (start_without_deleted 0 10) (10 - start_without_deleted 0 10) := by
  have ht : delete_threshold 0 10 = ((1:ℕ):ℚ) := by rw [delete_threshold_0_10]; norm_num
  refine ⟨(claim_C2 0 10).2.2 1 ht (by norm_num) (by norm_num), ?_⟩
  refine (claim_C2 0 10).1 5 (by norm_num) (by norm_num) ?_
  unfold marksForDeletion
  rw [delete_threshold_0_10, decide_eq_false_iff_not]
  norm_num

/-- C2 counterexample: on the load range `[0, 5)` index 0 is marked
deleted, yet it lies in the range the stage validator checks
(`int(0.5) = 0`), so a deleted index is checked, contradicting the claim
that the checks run exactly over `[start + deletedCount, end)`. -/
theorem claim_C2_counterexample :
    marksForDeletion 0 5 0 = true ∧
    (0 : ℕ) ∈ List.range' (start_without_deleted 0 5) (5 - start_without_deleted 0 5) := by
  constructor
  · unfold marksForDeletion
    rw [delete_threshold_0_5, decide_eq_true_eq]
    norm_num
  · rw [start_without_deleted_0_5, List.mem_range'_1]
    omega

/-! ## Claim C9: the stage-2 checkpoint arithmetic -/

/-- Unfolding lemma for `postDeleteCount`, kept at variable arguments. -/
theorem postDeleteCount_eq (s e : ℕ) : postDeleteCount s e = (e - s) - markedCount s e := rfl


/-- C9 (confirmed): the whole-dataset expectation used after stage 2 is the
float `0.9 * 100000 = 90000`, which equals the sum of the two per-stage
post-delete counts `45000 + 45000` (each stage marks 5000 of its 50000
records); the single-stage expectation is `45000`, and each stage's
validated sub-range also has exactly 45000 indices. -/
theorem claim_C9 :
    expected_count_stage_1 = (45000:ℚ) ∧
    expected_count_stage_2 = (90000:ℚ) ∧
    postDeleteCount start_stage_1 end_stage_1 = 45000 ∧
    postDeleteCount start_stage_2 end_stage_2 = 45000 ∧
    expected_count_stage_2 =
      ((postDeleteCount start_stage_1 end_stage_1 +
        postDeleteCount start_stage_2 end_stage_2 : ℕ) : ℚ) ∧
    end_stage_1 - start_without_deleted start_stage_1 end_stage_1 = 45000 ∧
    end_stage_2 - start_without_deleted start_stage_2 end_stage_2 = 45000 := by
  have h1 : expected_count_stage_1 = (45000:ℚ) := by
    show fpMul float0_9 (fpOfNat 50000) = 45000
    exact fpMul_ninetenths_50000
  have h2 : expected_count_stage_2 = (90000:ℚ) := by
    show fpMul float0_9 (fpOfNat 100000) = 90000
    exact fpMul_ninetenths_100000
  have e1 : start_stage_1 = 0 := rfl
  have e2 : end_stage_1 = 50000 := rfl
  have e2s : start_stage_2 = 50000 := rfl
  have e3 : end_stage_2 = 100000 := by
    norm_num [end_stage_2, start_stage_2, end_stage_1, objects_per_stage]
  have h3 : postDeleteCount start_stage_1 end_stage_1 = 45000 := by
    rw [e1, e2, postDeleteCount_eq, markedCount_stage_1]
  have h4 : postDeleteCount start_stage_2 end_stage_2 = 45000 := by
    rw [e2s, e3, postDeleteCount_eq, markedCount_stage_2]
  refine ⟨h1, h2, h3, h4, ?_, ?_, ?_⟩
  · rw [h2, h3, h4]
    norm_num
  · rw [e1, e2, start_without_deleted_stage_1]
  · rw [e2s, e3, start_without_deleted_stage_2]

/-! ## Claim C5: the is_divisible_by_four partition -/

/-- Counting the multiples of 4 in a contiguous range. -/
theorem count_div4 : ∀ n s : ℕ,
    ((List.range' s n).filter fun i => decide (i % 4 = 0)).length =
      (s + n + 3) / 4 - (s + 3) / 4 := by
  intro n
  induction n with
  | zero => intro s; simp
  | succ n ih =>
    intro s
    rw [List.range'_succ, List.filter_cons]
    by_cases h : s % 4 = 0
    · simp only [decide_eq_true_eq, h, if_true, List.length_cons]
      rw [ih (s + 1)]
      omega
    · simp only [decide_eq_true_eq, h, if_false]
      rw [ih (s + 1)]
      omega

/-- C5 (confirmed): a generated record's `is_divisible_by_four` field is
true exactly when its index is divisible by 4, and over any contiguous
range of `4*k` indices exactly `k` of the generated records carry the flag
(one quarter of the range). -/
theorem claim_C5 :
    (∀ start end_ stage i,
      ((mkDataObject start end_ stage i).is_divisible_by_four = true ↔ i % 4 = 0)) ∧
    (∀ start end_ stage k,
      ((List.range' start (4 * k)).filter fun i =>
        (mkDataObject start end_ stage i).is_divisible_by_four).length = k) := by
  constructor
  · intro start end_ stage i
    unfold mkDataObject
    simp
  · intro start end_ stage k
    rw [show (fun i => (mkDataObject start end_ stage i).is_divisible_by_four) =
        (fun i => decide (i % 4 = 0)) from rfl]
    rw [count_div4]
    omega

/-! ## Claim C4: index / identifier round trip -/

/-- C4 (confirmed): every generated record's `index_id` equals its index;
for every index below `2^128` the identifier `uuid.UUID(int=i)` exists and
decodes back to `i`; the index-to-identifier map is injective; and the
loader stores exactly the pair `(record i, uuid i)` for each index of the
range, so validator lookups by `uuid.UUID(int=i)` address the very key the
loader wrote. -/
theorem claim_C4 :
    (∀ start end_ stage i, (mkDataObject start end_ stage i).index_id = i) ∧
    (∀ i : ℕ, i < 2 ^ 128 → ∃ u, uuidFromIndex i = some u ∧ uuidToIndex u = i) ∧
    (∀ i j : ℕ, ∀ u : Fin (2 ^ 128),
      uuidFromIndex i = some u → uuidFromIndex j = some u → i = j) ∧
    (∀ br cn start end_ stage,
      (load_records br cn start end_ stage).1 =
        (List.range' start (end_ - start)).map
          fun i => (mkDataObject start end_ stage i, uuidFromIndex i)) := by
  refine ⟨fun _ _ _ _ => rfl, ?_, ?_, fun _ _ _ _ _ => rfl⟩
  · intro i h
    exact ⟨⟨i, h⟩, by unfold uuidFromIndex; rw [dif_pos h], rfl⟩
  · intro i j u hi hj
    by_cases h1 : i < 2 ^ 128
    · by_cases h2 : j < 2 ^ 128
      · simp only [uuidFromIndex, dif_pos h1, Option.some.injEq] at hi
        simp only [uuidFromIndex, dif_pos h2, Option.some.injEq] at hj
        simpa using congrArg Fin.val (hi.trans hj.symm)
      · unfold uuidFromIndex at hj
        rw [dif_neg h2] at hj
        cases hj
    · unfold uuidFromIndex at hi
      rw [dif_neg h1] at hi
      cases hi

/-- C4 witness: index 42 fits in 128 bits, its identifier exists and
decodes back to 42. -/
theorem claim_C4_witness :
    ∃ u, uuidFromIndex 42 = some u ∧ uuidToIndex u = 42 :=
  claim_C4.2.1 42 (by norm_num)

/-! ## Claim C6: the batch error callback never aborts -/

/-- C6 (confirmed): the batch callback logs exactly the individual
object-failure messages of the batch result (one error log per message,
and nothing else), and neither the callback nor the loader ever exits —
`load_records` has no exit status and still submits all `end - start`
objects whatever the batch results contain. -/
theorem claim_C6 :
    (∀ (results : Option (List BatchItem)) (m : String),
      ((Level.error, Msg.batchError m) ∈ handle_errors results ↔
        ∃ items, results = some items ∧ ∃ r ∈ items, ∃ res, r.result = some res ∧
          ∃ errs, res.errors = some errs ∧ ∃ msgs, errs.error = some msgs ∧
            ∃ em ∈ msgs, em.message = m)) ∧
    (∀ results, ∀ ev ∈ handle_errors results,
      ∃ m : String, ev = (Level.error, Msg.batchError m)) ∧
    (∀ br cn start end_ stage, (load_records br cn start end_ stage).2.2 = none) ∧
    (∀ br cn start end_ stage,
      (load_records br cn start end_ stage).1.length = end_ - start) := by
  refine ⟨?_, ?_, fun _ _ _ _ _ => rfl, ?_⟩
  · intro results m
    cases results with
    | none => simp [handle_errors]
    | some items =>
      simp only [handle_errors, List.mem_flatMap]
      constructor
      · rintro ⟨r, hr, hev⟩
        obtain ⟨ores⟩ := r
        rcases ores with _ | res
        · simp at hev
        · obtain ⟨oerrs⟩ := res
          rcases oerrs with _ | errs
          · simp at hev
          · obtain ⟨oerr⟩ := errs
            rcases oerr with _ | msgs
            · simp at hev
            · simp only [List.mem_map] at hev
              obtain ⟨em, hem, heq⟩ := hev
              refine ⟨items, rfl, ⟨some ⟨some ⟨some msgs⟩⟩⟩, hr,
                ⟨some ⟨some msgs⟩⟩, rfl, ⟨some msgs⟩, rfl, msgs, rfl, em, hem, ?_⟩
              have := congrArg Prod.snd heq
              simpa using this
      · rintro ⟨items', heq, r, hr, res, hres, errs, herrs, msgs, hmsgs, em, hem, hmsg⟩
        obtain rfl : items' = items := by
          injection heq with h
          exact h.symm
        refine ⟨r, hr, ?_⟩
        simp only [hres, herrs, hmsgs, List.mem_map]
        exact ⟨em, hem, by rw [hmsg]⟩
  · intro results ev hev
    cases results with
    | none => simp [handle_errors] at hev
    | some items =>
      simp only [handle_errors, List.mem_flatMap] at hev
      obtain ⟨r, _, hev⟩ := hev
      obtain ⟨ores⟩ := r
      rcases ores with _ | res
      · simp at hev
      · obtain ⟨oerrs⟩ := res
        rcases oerrs with _ | errs
        · simp at hev
        · obtain ⟨oerr⟩ := errs
          rcases oerr with _ | msgs
          · simp at hev
          · simp only [List.mem_map] at hev
            obtain ⟨em, _, heq⟩ := hev
            exact ⟨em.message, heq.symm⟩
  · intro br cn start end_ stage
    simp [load_records]

/-! ## Early-exit loop lemmas for the validators -/

/-- Specification of a fatal outcome: whenever a step exits, it exits with
status 1, and the last event it logged is an error message that carries
the offending values. -/
def FatalSpec (x : List LogEvent × Option ℕ) : Prop :=
  x.2 ≠ none → x.2 = some 1 ∧
    ∃ ev, x.1.getLast? = some ev ∧ ev.1 = Level.error ∧ ev.2.isMismatchMsg = true

theorem fatalSpec_of_none {x : List LogEvent × Option ℕ} (h : x.2 = none) :
    FatalSpec x := fun hc => absurd h hc

theorem thenRun_exit (a b : List LogEvent × Option ℕ) :
    (thenRun a b).2 = none ↔ a.2 = none ∧ b.2 = none := by
  rcases a with ⟨la, _ | c⟩
  · simp [thenRun]
  · simp [thenRun]

theorem fatalSpec_thenRun {a b : List LogEvent × Option ℕ}
    (ha : FatalSpec a) (hb : FatalSpec b) : FatalSpec (thenRun a b) := by
  rcases a with ⟨la, _ | c⟩
  · intro h
    have hb2 : b.2 ≠ none := by simpa [thenRun] using h
    obtain ⟨h1, ev, hev, he1, he2⟩ := hb hb2
    refine ⟨by simpa [thenRun] using h1, ev, ?_, he1, he2⟩
    show (la ++ b.1).getLast? = some ev
    rw [List.getLast?_append_of_ne_nil]
    · exact hev
    · intro hnil
      rw [hnil] at hev
      cases hev
  · intro _
    exact ha (by simp)

/-- A conditional fatal check returns no message exactly when its
condition fails. -/
theorem ite_some_none_eq_none {c : Prop} [Decidable c] {m : Msg} :
    ((if c then some m else none) = none) ↔ ¬c := by
  by_cases h : c
  · simp [h]
  · simp [h]

theorem checkLoop_exit_none (chk : ℕ → Option Msg) (cad : ℕ → List LogEvent) :
    ∀ xs : List ℕ, (checkLoop chk cad xs).2 = none ↔ ∀ i ∈ xs, chk i = none := by
  intro xs
  induction xs with
  | nil => simp [checkLoop]
  | cons i rest ih =>
    rcases hc : chk i with _ | m
    · simp [checkLoop, hc, ih]
    · simp [checkLoop, hc]

theorem fatalSpec_checkLoop (chk : ℕ → Option Msg) (cad : ℕ → List LogEvent)
    (hchk : ∀ i m, chk i = some m → m.isMismatchMsg = true) :
    ∀ xs : List ℕ, FatalSpec (checkLoop chk cad xs) := by
  intro xs
  induction xs with
  | nil => exact fatalSpec_of_none rfl
  | cons i rest ih =>
    rcases hc : chk i with _ | m
    · have heq : checkLoop chk cad (i :: rest) =
          (cad i ++ (checkLoop chk cad rest).1, (checkLoop chk cad rest).2) := by
        simp [checkLoop, hc]
      rw [heq]
      intro h
      obtain ⟨h1, ev, hev, he1, he2⟩ := ih h
      refine ⟨h1, ev, ?_, he1, he2⟩
      show (cad i ++ (checkLoop chk cad rest).1).getLast? = some ev
      rw [List.getLast?_append_of_ne_nil]
      · exact hev
      · intro hnil
        rw [hnil] at hev
        cases hev
    · have heq : checkLoop chk cad (i :: rest) = ([(Level.error, m)], some 1) := by
        simp [checkLoop, hc]
      rw [heq]
      intro _
      exact ⟨rfl, (Level.error, m), by simp, rfl, hchk i m hc⟩

theorem vectorLoop_exit_none (respLen : ℕ → ℕ) (ws : Option String) (e : ℕ) :
    ∀ xs : List ℕ, (vectorLoop respLen ws e xs).2.2 = none ↔ ∀ i ∈ xs, respLen i = 20 := by
  intro xs
  induction xs with
  | nil => simp [vectorLoop]
  | cons i rest ih =>
    by_cases hc : respLen i = 20
    · simp [vectorLoop, hc, ih]
    · simp [vectorLoop, hc]

theorem fatalSpec_vectorLoop (respLen : ℕ → ℕ) (ws : Option String) (e : ℕ) :
    ∀ xs : List ℕ, FatalSpec (vectorLoop respLen ws e xs).2 := by
  intro xs
  induction xs with
  | nil => exact fatalSpec_of_none rfl
  | cons i rest ih =>
    by_cases hc : respLen i = 20
    · have heq : (vectorLoop respLen ws e (i :: rest)).2 =
          ((if i % 10000 = 0 then [(Level.success, Msg.validatedSearch i e)] else [])
            ++ (vectorLoop respLen ws e rest).2.1, (vectorLoop respLen ws e rest).2.2) := by
        simp [vectorLoop, hc]
      rw [heq]
      intro h
      obtain ⟨h1, ev, hev, he1, he2⟩ := ih h
      refine ⟨h1, ev, ?_, he1, he2⟩
      show ((if i % 10000 = 0 then [(Level.success, Msg.validatedSearch i e)] else [])
        ++ (vectorLoop respLen ws e rest).2.1).getLast? = some ev
      rw [List.getLast?_append_of_ne_nil]
      · exact hev
      · intro hnil
        rw [hnil] at hev
        cases hev
    · have heq : (vectorLoop respLen ws e (i :: rest)).2 =
          ([(Level.error, Msg.searchLenMismatch (respLen i) 20)], some 1) := by
        simp [vectorLoop, hc]
      rw [heq]
      intro _
      exact ⟨rfl, (Level.error, Msg.searchLenMismatch (respLen i) 20), by simp, rfl, rfl⟩

theorem vectorLoop_queries (respLen : ℕ → ℕ) (ws : Option String) (e : ℕ) :
    ∀ xs : List ℕ, ∀ q ∈ (vectorLoop respLen ws e xs).1,
      q.limit = 20 ∧ q.whereStage = ws := by
  intro xs
  induction xs with
  | nil => simp [vectorLoop]
  | cons i rest ih =>
    by_cases hc : respLen i = 20
    · intro q hq
      rw [show (vectorLoop respLen ws e (i :: rest)).1 =
          ({ seed := uuidFromIndex i, limit := 20, whereStage := ws } : NearQuery)
            :: (vectorLoop respLen ws e rest).1 from by simp [vectorLoop, hc]] at hq
      rcases List.mem_cons.mp hq with h | h
      · rw [h]
        exact ⟨rfl, rfl⟩
      · exact ih q h
    · intro q hq
      rw [show (vectorLoop respLen ws e (i :: rest)).1 =
          [({ seed := uuidFromIndex i, limit := 20, whereStage := ws } : NearQuery)] from by
        simp [vectorLoop, hc]] at hq
      rcases List.mem_singleton.mp hq with h
      rw [h]
      exact ⟨rfl, rfl⟩

theorem vectorLoop_queries_complete (respLen : ℕ → ℕ) (ws : Option String) (e : ℕ) :
    ∀ xs : List ℕ, (vectorLoop respLen ws e xs).2.2 = none →
      (vectorLoop respLen ws e xs).1 =
        xs.map fun i => { seed := uuidFromIndex i, limit := 20, whereStage := ws } := by
  intro xs
  induction xs with
  | nil => intro _; simp [vectorLoop]
  | cons i rest ih =>
    intro h
    by_cases hc : respLen i = 20
    · have ht : (vectorLoop respLen ws e rest).2.2 = none := by
        simpa [vectorLoop, hc] using h
      rw [show (vectorLoop respLen ws e (i :: rest)).1 =
          ({ seed := uuidFromIndex i, limit := 20, whereStage := ws } : NearQuery)
            :: (vectorLoop respLen ws e rest).1 from by simp [vectorLoop, hc],
        ih ht, List.map_cons]
    · exfalso
      have : (vectorLoop respLen ws e (i :: rest)).2.2 = some 1 := by
        simp [vectorLoop, hc]
      rw [this] at h
      cases h

/-! ## Behaviour of `validate_dataset` -/

theorem validate_dataset_exit (tc pc ftc fpc : ℕ) (cn : String) (ec : ℚ) :
    ((validate_dataset tc pc ftc fpc cn ec).2 = none ↔
      ((tc:ℚ) = ec ∧ (pc:ℚ) = ec ∧ (ftc:ℚ) = expected_filtered_count ec ∧
        (fpc:ℚ) = expected_filtered_count ec)) ∧
    FatalSpec (validate_dataset tc pc ftc fpc cn ec) := by
  by_cases h1 : (tc:ℚ) = ec
  · by_cases h2 : (pc:ℚ) = ec
    · by_cases h3 : (ftc:ℚ) = expected_filtered_count ec
      · by_cases h4 : (fpc:ℚ) = expected_filtered_count ec
        · have heq : (validate_dataset tc pc ftc fpc cn ec).2 = none := by
            simp [validate_dataset, h1, h2, h3, h4]
          rw [heq]
          exact ⟨by simp [h1, h2, h3, h4], fatalSpec_of_none heq⟩
        · have heq : validate_dataset tc pc ftc fpc cn ec =
              ([(Level.info, Msg.aggNoFilterHeader),
                (Level.success, Msg.gotObjects cn tc ec),
                (Level.success, Msg.gotProps cn pc ec),
                (Level.info, Msg.aggFilterHeader),
                (Level.success, Msg.gotObjects cn ftc (expected_filtered_count ec)),
                (Level.error, Msg.gotProps cn fpc (expected_filtered_count ec))],
                some 1) := by
            simp [validate_dataset, h1, h2, h3, h4]
          rw [heq]
          refine ⟨by simp [h4], fun _ => ⟨rfl,
            (Level.error, Msg.gotProps cn fpc (expected_filtered_count ec)), ?_, rfl, rfl⟩⟩
          rfl
      · have heq : validate_dataset tc pc ftc fpc cn ec =
            ([(Level.info, Msg.aggNoFilterHeader),
              (Level.success, Msg.gotObjects cn tc ec),
              (Level.success, Msg.gotProps cn pc ec),
              (Level.info, Msg.aggFilterHeader),
              (Level.error, Msg.gotObjects cn ftc (expected_filtered_count ec))],
              some 1) := by
          simp [validate_dataset, h1, h2, h3]
        rw [heq]
        refine ⟨by simp [h3], fun _ => ⟨rfl,
          (Level.error, Msg.gotObjects cn ftc (expected_filtered_count ec)), ?_, rfl, rfl⟩⟩
        rfl
    · have heq : validate_dataset tc pc ftc fpc cn ec =
          ([(Level.info, Msg.aggNoFilterHeader),
            (Level.success, Msg.gotObjects cn tc ec),
            (Level.error, Msg.gotProps cn pc ec)], some 1) := by
        simp [validate_dataset, h1, h2]
      rw [heq]
      refine ⟨by simp [h2], fun _ => ⟨rfl,
        (Level.error, Msg.gotProps cn pc ec), ?_, rfl, rfl⟩⟩
      rfl
  · have heq : validate_dataset tc pc ftc fpc cn ec =
        ([(Level.info, Msg.aggNoFilterHeader),
          (Level.error, Msg.gotObjects cn tc ec)], some 1) := by
      simp [validate_dataset, h1]
    rw [heq]
    refine ⟨by simp [h1], fun _ => ⟨rfl,
      (Level.error, Msg.gotObjects cn tc ec), ?_, rfl, rfl⟩⟩
    rfl

/-! ## Behaviour of `validate_stage` -/

theorem validate_stage_exit (obsById obsByFilter : ℕ → ℤ) (nearLen nearFilteredLen : ℕ → ℕ)
    (cn : String) (start end_ : ℕ) (stage : String) :
    ((validate_stage obsById obsByFilter nearLen nearFilteredLen cn start end_ stage).2 = none ↔
      ∀ i ∈ validated_range start end_,
        obsById i = (i:ℤ) ∧ obsByFilter i = (i:ℤ) ∧
          nearLen i = 20 ∧ nearFilteredLen i = 20) ∧
    FatalSpec (validate_stage obsById obsByFilter nearLen nearFilteredLen cn start end_ stage) := by
  constructor
  · unfold validate_stage
    simp only [thenRun_exit, checkLoop_exit_none, vectorLoop_exit_none,
      ite_some_none_eq_none, not_ne_iff]
    constructor
    · rintro ⟨-, h1, -, h2, -, h3, -, h4⟩ i hi
      exact ⟨h1 i hi, h2 i hi, h3 i hi, h4 i hi⟩
    · intro h
      exact ⟨trivial, fun i hi => (h i hi).1, trivial, fun i hi => (h i hi).2.1, trivial,
        fun i hi => (h i hi).2.2.1, trivial, fun i hi => (h i hi).2.2.2⟩
  · unfold validate_stage
    have hc1 : ∀ i m, (if obsById i ≠ (i:ℤ)
        then some (Msg.uuidIndexMismatch i (obsById i)) else none) = some m →
        m.isMismatchMsg = true := by
      intro i m hm
      by_cases h : obsById i ≠ (i:ℤ)
      · rw [if_pos h] at hm
        cases hm
        rfl
      · rw [if_neg h] at hm
        cases hm
    have hc2 : ∀ i m, (if obsByFilter i ≠ (i:ℤ)
        then some (Msg.filterIndexMismatch (obsByFilter i) i) else none) = some m →
        m.isMismatchMsg = true := by
      intro i m hm
      by_cases h : obsByFilter i ≠ (i:ℤ)
      · rw [if_pos h] at hm
        cases hm
        rfl
      · rw [if_neg h] at hm
        cases hm
    exact fatalSpec_thenRun (fatalSpec_of_none rfl)
      (fatalSpec_thenRun (fatalSpec_checkLoop _ _ hc1 _)
        (fatalSpec_thenRun (fatalSpec_of_none rfl)
          (fatalSpec_thenRun (fatalSpec_checkLoop _ _ hc2 _)
            (fatalSpec_thenRun (fatalSpec_of_none rfl)
              (fatalSpec_thenRun (fatalSpec_vectorLoop _ _ _ _)
                (fatalSpec_thenRun (fatalSpec_of_none rfl)
                  (fatalSpec_vectorLoop _ _ _ _)))))))

/-! ## Claim C7: mismatches are fatal, normal return means no mismatch -/

/-- C7 (amended): for both validators, returning without an exit status
is equivalent to every observed value matching its expectation (all four
aggregate counts for `validate_dataset`; identity lookup, filter lookup
and both search result-counts for every index of the validated range for
`validate_stage`), and any mismatch terminates with exit status 1 after
logging, as its last event, an error message that carries the observed
and expected values (`FatalSpec`).  The offending index or collection is
not always included: a search result-count mismatch logs only the result
length and the limit (see the counterexample below), so only the
got/wanted part holds for every mismatch kind. -/
theorem claim_C7 :
    (∀ (tc pc ftc fpc : ℕ) (cn : String) (ec : ℚ),
      ((validate_dataset tc pc ftc fpc cn ec).2 = none ↔
        ((tc:ℚ) = ec ∧ (pc:ℚ) = ec ∧ (ftc:ℚ) = expected_filtered_count ec ∧
          (fpc:ℚ) = expected_filtered_count ec)) ∧
      FatalSpec (validate_dataset tc pc ftc fpc cn ec)) ∧
    (∀ (obsById obsByFilter : ℕ → ℤ) (nearLen nearFilteredLen : ℕ → ℕ)
      (cn : String) (start end_ : ℕ) (stage : String),
      ((validate_stage obsById obsByFilter nearLen nearFilteredLen
          cn start end_ stage).2 = none ↔
        ∀ i ∈ validated_range start end_,
          obsById i = (i:ℤ) ∧ obsByFilter i = (i:ℤ) ∧
            nearLen i = 20 ∧ nearFilteredLen i = 20) ∧
      FatalSpec (validate_stage obsById obsByFilter nearLen nearFilteredLen
        cn start end_ stage)) :=
  ⟨fun tc pc ftc fpc cn ec => validate_dataset_exit tc pc ftc fpc cn ec,
   fun a b c d cn s e st => validate_stage_exit a b c d cn s e st⟩

/-- C7 witness: an aggregate count of 5 against the expectation 45000
exits with status 1. -/
theorem claim_C7_witness : (validate_dataset 5 0 0 0 "Class_A" (45000:ℚ)).2 = some 1 := by
  have h := claim_C7.1 5 0 0 0 "Class_A" (45000:ℚ)
  have hne : (validate_dataset 5 0 0 0 "Class_A" (45000:ℚ)).2 ≠ none := by
    intro hn
    have h5 := (h.1.mp hn).1
    norm_num at h5
  exact (h.2 hne).1

/-- C7 counterexample: a search result-count mismatch is fatal, but its
log message carries neither the offending index nor the collection — the
stage validator produces literally identical logs (ending in
`searchLenMismatch 0 20`) whether the unfiltered search fails at index 3
of collection `Class_A` or at index 7 of collection `Class_B`, so the
claim that the offending index or collection is logged for every mismatch
kind is false of the code. -/
theorem claim_C7_counterexample :
    (validate_stage (fun i => (i:ℤ)) (fun i => (i:ℤ)) (fun i => if i = 3 then 0 else 20)
      (fun _ => 20) "Class_A" 0 10 "stage_1").2 = some 1 ∧
    (validate_stage (fun i => (i:ℤ)) (fun i => (i:ℤ)) (fun i => if i = 3 then 0 else 20)
      (fun _ => 20) "Class_A" 0 10 "stage_1").1.getLast? =
      some (Level.error, Msg.searchLenMismatch 0 20) ∧
    (validate_stage (fun i => (i:ℤ)) (fun i => (i:ℤ)) (fun i => if i = 3 then 0 else 20)
      (fun _ => 20) "Class_A" 0 10 "stage_1").1 =
    (validate_stage (fun i => (i:ℤ)) (fun i => (i:ℤ)) (fun i => if i = 7 then 0 else 20)
      (fun _ => 20) "Class_B" 0 10 "stage_1").1 := by
  have hvr : validated_range 0 10 = [1, 2, 3, 4, 5, 6, 7, 8, 9] := by
    unfold validated_range
    rw [start_without_deleted_0_10]
    rfl
  refine ⟨?_, ?_, ?_⟩
  · simp only [validate_stage, hvr]
    rfl
  · simp only [validate_stage, hvr]
    rfl
  · simp only [validate_stage, hvr]
    rfl

/-! ## Claim C8: the vector-search checks -/

/-- C8 (confirmed): each vector-search loop of the stage validator issues,
for the indices of the validated sub-range, a nearest-neighbour query
seeded by the record's own identifier (hence its stored vector) with
result-set size 20 — once with no filter and once filtered on the stage
label — and it exits fatally (status 1, error logged last) exactly when
some returned result count differs from 20. -/
theorem claim_C8 (nearLen nearFilteredLen : ℕ → ℕ) (start end_ : ℕ) (stage : String) :
    ((vectorLoop nearLen none end_ (validated_range start end_)).2.2 = none ↔
      ∀ i ∈ validated_range start end_, nearLen i = 20) ∧
    ((vectorLoop nearFilteredLen (some stage) end_ (validated_range start end_)).2.2 = none ↔
      ∀ i ∈ validated_range start end_, nearFilteredLen i = 20) ∧
    (∀ q ∈ (vectorLoop nearLen none end_ (validated_range start end_)).1,
      q.limit = 20 ∧ q.whereStage = none) ∧
    (∀ q ∈ (vectorLoop nearFilteredLen (some stage) end_ (validated_range start end_)).1,
      q.limit = 20 ∧ q.whereStage = some stage) ∧
    ((vectorLoop nearLen none end_ (validated_range start end_)).2.2 = none →
      (vectorLoop nearLen none end_ (validated_range start end_)).1 =
        (validated_range start end_).map
          fun i => { seed := uuidFromIndex i, limit := 20, whereStage := none }) ∧
    ((vectorLoop nearFilteredLen (some stage) end_ (validated_range start end_)).2.2 = none →
      (vectorLoop nearFilteredLen (some stage) end_ (validated_range start end_)).1 =
        (validated_range start end_).map
          fun i => { seed := uuidFromIndex i, limit := 20, whereStage := some stage }) ∧
    FatalSpec (vectorLoop nearLen none end_ (validated_range start end_)).2 ∧
    FatalSpec (vectorLoop nearFilteredLen (some stage) end_ (validated_range start end_)).2 :=
  ⟨vectorLoop_exit_none _ _ _ _, vectorLoop_exit_none _ _ _ _,
   vectorLoop_queries _ _ _ _, vectorLoop_queries _ _ _ _,
   vectorLoop_queries_complete _ _ _ _, vectorLoop_queries_complete _ _ _ _,
   fatalSpec_vectorLoop _ _ _ _, fatalSpec_vectorLoop _ _ _ _⟩

/-- C8 witness: when the store always returns 20 results, the unfiltered
vector-search loop over the validated range of `[0, 10)` finishes without
an exit. -/
theorem claim_C8_witness :
    (vectorLoop (fun _ => 20) none 10 (validated_range 0 10)).2.2 = none :=
  (claim_C8 (fun _ => 20) (fun _ => 20) 0 10 "stage_1").1.mpr (fun _ _ => rfl)

/-! ## Claim C3: the filtered aggregate expectation -/

theorem expected_filtered_count_45000 : expected_filtered_count 45000 = 33750 := by
  unfold expected_filtered_count
  rw [fpMul_45000_3, fpDiv_135000_4]

theorem expected_filtered_count_90000 : expected_filtered_count 90000 = 67500 := by
  unfold expected_filtered_count
  rw [fpMul_90000_3, fpDiv_270000_4]

theorem expected_filtered_count_10 : expected_filtered_count 10 = 15/2 := by
  unfold expected_filtered_count
  rw [fpMul_10_3, fpDiv_30_4]

/-- C3 (amended): once the unfiltered checks pass, the filtered check of
the aggregate validator compares both the filtered object count and the
filtered property count against `expectedTotal * 3 / 4` computed exactly
in float arithmetic (multiplication then true division — no integer
truncation anywhere), and a mismatch in either is fatal.  The exact value
coincides with a truncated one only when it is an integer, as at the
script's checkpoints (45000 → 33750 and 90000 → 67500). -/
theorem claim_C3 (tc pc ftc fpc : ℕ) (cn : String) (ec : ℚ)
    (h1 : (tc:ℚ) = ec) (h2 : (pc:ℚ) = ec) :
    ((validate_dataset tc pc ftc fpc cn ec).2 = none ↔
      ((ftc:ℚ) = expected_filtered_count ec ∧ (fpc:ℚ) = expected_filtered_count ec)) ∧
    ((validate_dataset tc pc ftc fpc cn ec).2 ≠ none →
      (validate_dataset tc pc ftc fpc cn ec).2 = some 1) ∧
    expected_filtered_count ec = fpDiv (fpMul ec (fpOfNat 3)) (fpOfNat 4) := by
  have h := validate_dataset_exit tc pc ftc fpc cn ec
  refine ⟨?_, fun hne => (h.2 hne).1, rfl⟩
  rw [h.1]
  simp [h1, h2]

/-- C3 witness: at the stage-1 checkpoint (expectation the float 45000)
the filtered expectation is exactly 33750 and matching counts pass. -/
theorem claim_C3_witness :
    (validate_dataset 45000 45000 33750 33750 "Class_A" (45000:ℚ)).2 = none := by
  have h := claim_C3 45000 45000 33750 33750 "Class_A" (45000:ℚ)
    (by norm_num) (by norm_num)
  refine h.1.mpr ?_
  rw [expected_filtered_count_45000]
  norm_num

/-- C3 counterexample: for `expectedTotal = 10` the truncated expectation
`int(10*3/4) = 7` matches an observed filtered count of 7, yet the code
compares against the un-truncated float `7.5` and exits fatally. -/
theorem claim_C3_counterexample :
    (validate_dataset 10 10 7 7 "Class_A" (10:ℚ)).2 = some 1 ∧
    (7:ℤ) = ⌊(10:ℚ) * 3 / 4⌋ ∧ (7:ℚ) ≠ expected_filtered_count 10 := by
  have h := validate_dataset_exit 10 10 7 7 "Class_A" (10:ℚ)
  have hne : (validate_dataset 10 10 7 7 "Class_A" (10:ℚ)).2 ≠ none := by
    intro hn
    have h7 := (h.1.mp hn).2.2.1
    rw [expected_filtered_count_10] at h7
    norm_num at h7
  refine ⟨(h.2 hne).1, by norm_num, ?_⟩
  rw [expected_filtered_count_10]
  norm_num

/-- C6 witness: a batch result with one failed object produces exactly its
error log, and a load of `[0, 10)` still submits all 10 objects. -/
theorem claim_C6_witness :
    (Level.error, Msg.batchError "boom") ∈
      handle_errors (some [⟨some ⟨some ⟨some [⟨"boom"⟩]⟩⟩⟩]) ∧
    (load_records (fun _ => none) "Class_A" 0 10 "stage_1").1.length = 10 - 0 := by
  constructor
  · exact (claim_C6.1 _ "boom").mpr
      ⟨[⟨some ⟨some ⟨some [⟨"boom"⟩]⟩⟩⟩], rfl, ⟨some ⟨some ⟨some [⟨"boom"⟩]⟩⟩⟩,
        by simp, ⟨some ⟨some [⟨"boom"⟩]⟩⟩, rfl, ⟨some [⟨"boom"⟩]⟩, rfl, [⟨"boom"⟩], rfl,
        ⟨"boom"⟩, by simp, rfl⟩
  · exact claim_C6.2.2.2 (fun _ => none) "Class_A" 0 10 "stage_1"

end BackupRestore
